import Mathlib

/-!
Shallow embedding of the digo dependency-injection container
(src/container.go, src/context.go, src/errors.go, and the scope /
lifecycle declarations in the services package).

Conventions of the embedding:
* Go machine state is passed explicitly as a `ContainerState` value.
* The container executes for a single logical caller (one goroutine), so
  the per-goroutine resolution-chain map collapses to one in-flight set
  (`chain`).  The pool/teardown machinery of `finishResolving` only
  recycles tracker allocations and has no observable effect on a single
  caller, so `finishResolving` is modelled as erasing the key.
* `sync.Map` value stores are modelled by their lookup functions
  (`String -> Option String`); `Store` is pointwise override, which is
  exactly the observable content of copy-then-store in the source.
* Lifecycle hooks are client code outside the engine.  They are modelled
  the way the repository's own mocks write them: an `OnBoot` hook
  resolves a list of transient dependencies in order (returning the
  first error, as `CircularImpl1.OnBoot` does) and can then fail on its
  own; an `OnShutdown` hook can fail.  Hook invocations are recorded in
  an event trace.
* Go panics (failed unchecked type assertions) are a distinct outcome
  (`Outcome.panicked`), not an error return.
* Recursion through hooks is bounded by fuel; `Outcome.noFuel` marks
  fuel exhaustion and never occurs for adequate fuel because the
  resolution chain bounds the real recursion depth.
-/

namespace Digo

/-- Lookup function of a key/value store (the observable content of a Go
`sync.Map` holding string keys and values, or of a parent
`context.Context`). -/
abbrev KV := String → Option String

/-- ContainerContext from src/context.go: wraps a parent context and a
local value store. -/
structure ContainerContext where
  parentCtx : KV
  values : KV

/-- NewContainerContext from src/context.go: wraps a parent, substituting
an empty background context when the parent is nil. -/
def NewContainerContext (parent : Option KV) : ContainerContext :=
  { parentCtx := parent.getD (fun _ => none), values := fun _ => none }

/-- WithValue from src/context.go: copies all current local pairs and
stores the new pair, never mutating the receiver. -/
def ContainerContext.WithValue (c : ContainerContext) (k v : String) : ContainerContext :=
  { parentCtx := c.parentCtx,
    values := fun q => if q = k then some v else c.values q }

/-- Value from src/context.go: local store first, then the parent chain. -/
def ContainerContext.Value (c : ContainerContext) (k : String) : Option String :=
  match c.values k with
  | some v => some v
  | none => c.parentCtx k

/-- Parent accessor from src/context.go. -/
def ContainerContext.Parent (c : ContainerContext) : KV := c.parentCtx

/-- MergeWith from src/context.go: a fresh context on the receiver's
parent, holding the receiver's pairs overwritten by the other context's
pairs; a nil other contributes nothing. -/
def ContainerContext.MergeWith (c : ContainerContext) (other : Option ContainerContext) :
    ContainerContext :=
  { parentCtx := c.parentCtx,
    values := fun k =>
      match other with
      | none => c.values k
      | some o =>
        match o.values k with
        | some v => some v
        | none => c.values k }

/-- Scope from the services package declarations. -/
inductive Scope where
  | transient
  | request
  | singleton
deriving DecidableEq, Repr

/-- String value of a Scope constant ("transient" / "request" /
"singleton"). -/
def Scope.str : Scope → String
  | .transient => "transient"
  | .request => "request"
  | .singleton => "singleton"

/-- Error taxonomy from src/errors.go.  Wrapping errors keep their cause;
`simulated` stands for an error value produced by client hook code
(e.g. fmt.Errorf in a mock). -/
inductive GoError where
  | circular (t : String)
  | notFound (t : String)
  | nilService (t : String)
  | missingContextValue (k : String)
  | typeMismatch (expected got : String)
  | initialization (t : String) (err : GoError)
  | shutdownErr (t : String) (err : GoError)
  | predicateErr (t : String) (err : GoError)
  | simulated (msg : String)
deriving DecidableEq, Repr

/-- Unwrap chain of an error, following the Unwrap methods of
src/errors.go. -/
def GoError.chain : GoError → List GoError
  | .initialization t err => .initialization t err :: err.chain
  | .shutdownErr t err => .shutdownErr t err :: err.chain
  | .predicateErr t err => .predicateErr t err :: err.chain
  | e => [e]

/-- Observable lifecycle-hook invocation, tagged with the identity of the
service object whose hook ran. -/
inductive Event where
  | boot (id : Nat)
  | shutdown (id : Nat)
deriving DecidableEq, Repr

/-- A concrete service implementation object.  `id` is object identity
(the pointer), `typeName` its dynamic type, `implements` the interface
types its dynamic type satisfies, `bootResolves` the transient
resolutions its OnBoot performs in order (as the repository's mock hooks
do), `bootFails`/`shutdownFails` whether the hook then returns an error
of its own. -/
structure ServiceImpl where
  id : Nat
  typeName : String
  implements : List String
  bootResolves : List String
  bootFails : Bool
  shutdownFails : Bool
deriving DecidableEq, Repr

/-- ContextPredicate from the services package: selects a concrete
implementation from the bound context, or fails. -/
abbrev ContextPredicate := ContainerContext → Except GoError ServiceImpl

/-- bindingDefinition from src/container.go.  `inited` embeds the Go
field `initialized`. -/
structure Binding where
  scope : Scope
  concrete : ServiceImpl
  abstract : String
  inited : Bool
  ctx : ContainerContext
  predicate : Option ContextPredicate

/-- The container's mutable state: the binding table (association list
standing for the Go map, store-overwrite on key collision), the base
context, the `booted` flag, the consumed state of `bootOnce`, and the
single modelled caller's resolution chain. -/
structure ContainerState where
  bindings : List (String × Binding)
  ctx : ContainerContext
  booted : Bool
  bootConsumed : Bool
  chain : List String

/-- makeBindingKey from src/container.go (the type-string cache is a pure
memoisation and has no observable effect). -/
def makeBindingKey (scope : Scope) (serviceType : String) : String :=
  scope.str ++ ":" ++ serviceType

/-- Lookup in the binding table. -/
def lookupBinding (m : List (String × Binding)) (k : String) : Option Binding :=
  (m.find? (fun p => p.1 == k)).map (fun p => p.2)

/-- Overwriting store into the binding table (Go map assignment). -/
def storeBinding (m : List (String × Binding)) (k : String) (b : Binding) :
    List (String × Binding) :=
  m.filter (fun p => !(p.1 == k)) ++ [(k, b)]

/-- startResolving from src/container.go: fails with
CircularDependencyError when the key is already in the caller's
in-flight set, otherwise inserts it. -/
def startResolving (s : ContainerState) (key : String) : Except GoError ContainerState :=
  if key ∈ s.chain then .error (.circular key)
  else .ok { s with chain := key :: s.chain }

/-- finishResolving from src/container.go: removes the key from the
caller's in-flight set (tracker recycling is unobservable for one
caller). -/
def finishResolving (s : ContainerState) (key : String) : ContainerState :=
  { s with chain := s.chain.erase key }

/-- Result of a container operation: a value, a returned error, a Go
panic, or model fuel exhaustion. -/
inductive Outcome (α : Type) where
  | ok (a : α)
  | err (e : GoError)
  | panicked (msg : String)
  | noFuel
deriving DecidableEq, Repr

/-- Type of a resolution function usable from inside a hook. -/
abbrev Resolver := String → ContainerState → Outcome ServiceImpl × ContainerState × List Event

/-- Run an OnShutdown hook: it can only fail on its own; the invocation
is recorded. -/
def runOnShutdown (svc : ServiceImpl) : Except GoError Unit × List Event :=
  (if svc.shutdownFails then .error (.simulated "shutdown failure") else .ok (),
   [.shutdown svc.id])

/-- Run the transient resolutions a hook performs in order, stopping at
the first non-ok outcome (the hook returns that error, as the mock hooks
do). -/
def runSeqWith (resolve : Resolver) :
    List String → ContainerState → Outcome Unit × ContainerState × List Event
  | [], s => (.ok (), s, [])
  | t :: ts, s =>
    match resolve t s with
    | (.ok _, s1, ev) =>
      let r := runSeqWith resolve ts s1
      (r.1, r.2.1, ev ++ r.2.2)
    | (.err e, s1, ev) => (.err e, s1, ev)
    | (.panicked m, s1, ev) => (.panicked m, s1, ev)
    | (.noFuel, s1, ev) => (.noFuel, s1, ev)

/-- Run an OnBoot hook: record the invocation, perform its transient
resolutions, then possibly fail on its own.  The bound context passed to
the hook does not influence the modelled hook behaviour. -/
def runOnBootWith (resolve : Resolver) (svc : ServiceImpl) (_ctx : ContainerContext)
    (s : ContainerState) : Outcome Unit × ContainerState × List Event :=
  let r := runSeqWith resolve svc.bootResolves s
  match r.1 with
  | .ok _ =>
    (if svc.bootFails then Outcome.err (.simulated "boot failure") else Outcome.ok (),
     r.2.1, .boot svc.id :: r.2.2)
  | o => (o, r.2.1, .boot svc.id :: r.2.2)

/-- Write-back step of a resolution: store the updated binding copy when
the path performs a write-back, leave the table alone otherwise. -/
def applyWriteBack (wb : Option Binding) (key : String) (s : ContainerState) : ContainerState :=
  match wb with
  | some bb => { s with bindings := storeBinding s.bindings key bb }
  | none => s

/-- OnBoot invocation followed by the optional write-back and the
deferred finishResolving, shared by the success paths of the resolve
functions: OnBoot failure surfaces as InitializationError, success
returns `retVal`. -/
def bootAndFinish (resolve : Resolver) (t key : String) (svc : ServiceImpl)
    (ctx : ContainerContext) (wb : Option Binding) (retVal : ServiceImpl)
    (s0 : ContainerState) (ev0 : List Event) :
    Outcome ServiceImpl × ContainerState × List Event :=
  match (runOnBootWith resolve svc ctx s0).1 with
  | .ok _ =>
    (.ok retVal,
     finishResolving (applyWriteBack wb key (runOnBootWith resolve svc ctx s0).2.1) key,
     ev0 ++ (runOnBootWith resolve svc ctx s0).2.2)
  | .err e =>
    (.err (.initialization t e), finishResolving (runOnBootWith resolve svc ctx s0).2.1 key,
     ev0 ++ (runOnBootWith resolve svc ctx s0).2.2)
  | .panicked m =>
    (.panicked m, finishResolving (runOnBootWith resolve svc ctx s0).2.1 key,
     ev0 ++ (runOnBootWith resolve svc ctx s0).2.2)
  | .noFuel =>
    (.noFuel, finishResolving (runOnBootWith resolve svc ctx s0).2.1 key,
     ev0 ++ (runOnBootWith resolve svc ctx s0).2.2)

/-- Continuation of ResolveTransient (src/container.go lines 225-257)
after the shutdown-before-reuse step: predicate handling, the typed
check, OnBoot, and the write-back that only the direct (no-predicate)
path performs.  `b` is the local copy of the binding (with `inited`
already flipped to false when the shutdown step ran), `ev0` the events
of that step. -/
def transientCore (resolve : Resolver) (t key : String) (b : Binding) (s0 : ContainerState)
    (ev0 : List Event) : Outcome ServiceImpl × ContainerState × List Event :=
  match b.predicate with
  | some p =>
    match p b.ctx with
    | .error e => (.err (.predicateErr t e), finishResolving s0 key, ev0)
    | .ok result =>
      if result.implements.contains t then
        bootAndFinish resolve t key result b.ctx none result s0 ev0
      else
        (.err (.predicateErr t (.simulated "predicate returned invalid type")),
         finishResolving s0 key, ev0)
  | none =>
    if b.concrete.implements.contains t then
      bootAndFinish resolve t key b.concrete b.ctx (some { b with inited := true })
        b.concrete s0 ev0
    else
      (.err (.typeMismatch t b.concrete.typeName), finishResolving s0 key, ev0)

/-- Body of ResolveTransient after a successful cycle-guard entry
(src/container.go lines 209-257): lookup, shutdown-before-reuse of an
initialized binding, then `transientCore`. -/
def resolveTransientBody (resolve : Resolver) (t key : String) (s0 : ContainerState) :
    Outcome ServiceImpl × ContainerState × List Event :=
  match lookupBinding s0.bindings key with
  | none => (.err (.notFound t), finishResolving s0 key, [])
  | some b =>
    if b.inited then
      match runOnShutdown b.concrete with
      | (.error e, ev) => (.err (.shutdownErr t e), finishResolving s0 key, ev)
      | (.ok _, ev) => transientCore resolve t key { b with inited := false } s0 ev
    else
      transientCore resolve t key b s0 []

/-- ResolveTransient from src/container.go lines 198-258: cycle guard,
then `resolveTransientBody`.  The fuel bounds recursion through hooks. -/
def ResolveTransient : Nat → String → ContainerState →
    Outcome ServiceImpl × ContainerState × List Event
  | 0, _, s => (.noFuel, s, [])
  | fuel + 1, t, s =>
    let key := makeBindingKey .transient t
    match startResolving s key with
    | .error e => (.err e, s, [])
    | .ok s0 => resolveTransientBody (ResolveTransient fuel) t key s0

/-- Boot-and-write-back tail of ResolveRequest (src/container.go lines
308-318): OnBoot on the binding copy's concrete, write-back with
`initialized = true`, then the final unchecked assertion
`binding.concrete.(T)` which panics when the concrete does not satisfy
the requested type. -/
def requestBootStore (resolve : Resolver) (t key : String) (b : Binding)
    (s0 : ContainerState) : Outcome ServiceImpl × ContainerState × List Event :=
  match runOnBootWith resolve b.concrete b.ctx s0 with
  | (.ok _, s1, ev) =>
    let s2 := { s1 with bindings := storeBinding s1.bindings key { b with inited := true } }
    if b.concrete.implements.contains t then (.ok b.concrete, finishResolving s2 key, ev)
    else (.panicked "interface conversion", finishResolving s2 key, ev)
  | (.err e, s1, ev) => (.err (.initialization t e), finishResolving s1 key, ev)
  | (.panicked m, s1, ev) => (.panicked m, finishResolving s1 key, ev)
  | (.noFuel, s1, ev) => (.noFuel, finishResolving s1 key, ev)

/-- ResolveRequest from src/container.go lines 264-319: cycle guard,
lookup, the request_id requirement, the initialized fast path, then the
predicate step.  A predicate result of the wrong type hits the unchecked
assertion `result.(T)` at line 306 and panics (deferred finishResolving
still runs while panicking). -/
def ResolveRequest (fuel : Nat) (t : String) (s : ContainerState) :
    Outcome ServiceImpl × ContainerState × List Event :=
  let key := makeBindingKey .request t
  match startResolving s key with
  | .error e => (.err e, s, [])
  | .ok s0 =>
    match lookupBinding s0.bindings key with
    | none => (.err (.notFound t), finishResolving s0 key, [])
    | some b =>
      match b.ctx.Value "request_id" with
      | none => (.err (.missingContextValue "request_id"), finishResolving s0 key, [])
      | some _ =>
        if b.inited then
          if b.concrete.implements.contains t then (.ok b.concrete, finishResolving s0 key, [])
          else (.err (.typeMismatch t b.concrete.typeName), finishResolving s0 key, [])
        else
          match b.predicate with
          | some p =>
            match p b.ctx with
            | .error e => (.err (.predicateErr t e), finishResolving s0 key, [])
            | .ok result =>
              if result.implements.contains t then
                requestBootStore (ResolveTransient fuel) t key { b with concrete := result } s0
              else (.panicked "interface conversion", finishResolving s0 key, [])
          | none => requestBootStore (ResolveTransient fuel) t key b s0

/-- ResolveSingleton from src/container.go lines 325-360: lookup before
the cycle guard, initialized fast path, OnBoot, write-back, and the
final `binding.concrete.(T)` assertion. -/
def ResolveSingleton (fuel : Nat) (t : String) (s : ContainerState) :
    Outcome ServiceImpl × ContainerState × List Event :=
  let key := makeBindingKey .singleton t
  match lookupBinding s.bindings key with
  | none => (.err (.notFound t), s, [])
  | some b =>
    match startResolving s key with
    | .error e => (.err e, s, [])
    | .ok s0 =>
      if b.inited then
        if b.concrete.implements.contains t then (.ok b.concrete, finishResolving s0 key, [])
        else (.err (.typeMismatch t b.concrete.typeName), finishResolving s0 key, [])
      else
        match runOnBootWith (ResolveTransient fuel) b.concrete b.ctx s0 with
        | (.ok _, s1, ev) =>
          let s2 := { s1 with bindings := storeBinding s1.bindings key { b with inited := true } }
          if b.concrete.implements.contains t then (.ok b.concrete, finishResolving s2 key, ev)
          else (.panicked "interface conversion", finishResolving s2 key, ev)
        | (.err e, s1, ev) => (.err (.initialization t e), finishResolving s1 key, ev)
        | (.panicked m, s1, ev) => (.panicked m, finishResolving s1 key, ev)
        | (.noFuel, s1, ev) => (.noFuel, finishResolving s1 key, ev)

/-- Iteration body of Boot (src/container.go lines 96-112): OnBoot for
every uninitialized Singleton binding and for every Request binding,
short-circuiting on the first error.  The loop variable is a copy of the
map value, so the `binding.initialized = true` assignments are lost: the
loop never writes to the table. -/
def bootLoop (resolve : Resolver) :
    List (String × Binding) → ContainerState → Outcome Unit × ContainerState × List Event
  | [], s => (.ok (), s, [])
  | (_, b) :: rest, s =>
    if !b.inited && b.scope == Scope.singleton then
      match runOnBootWith resolve b.concrete b.ctx s with
      | (.ok _, s1, ev) =>
        let r := bootLoop resolve rest s1
        (r.1, r.2.1, ev ++ r.2.2)
      | (o, s1, ev) => (o, s1, ev)
    else if b.scope == Scope.request then
      match runOnBootWith resolve b.concrete b.ctx s with
      | (.ok _, s1, ev) =>
        let r := bootLoop resolve rest s1
        (r.1, r.2.1, ev ++ r.2.2)
      | (o, s1, ev) => (o, s1, ev)
    else
      bootLoop resolve rest s

/-- Boot from src/container.go lines 85-117: guarded by `bootOnce`
(consumed by any completed first run, successful or not), the inner
`booted` check, then the pre-warm loop. -/
def Boot (fuel : Nat) (s : ContainerState) : Outcome Unit × ContainerState × List Event :=
  if s.bootConsumed then (.ok (), s, [])
  else
    let s1 := { s with bootConsumed := true }
    if s1.booted then (.ok (), s1, [])
    else bootLoop (ResolveTransient fuel) s1.bindings s1

/-- Hook pass of Shutdown (src/container.go lines 137-144): OnShutdown on
each collected binding in table order, aborting with ShutdownError
(carrying the concrete dynamic type) on the first failure. -/
def shutdownHooks : List (String × Binding) → Except GoError Unit × List Event
  | [] => (.ok (), [])
  | (_, b) :: rest =>
    match runOnShutdown b.concrete with
    | (.error e, ev) => (.error (.shutdownErr b.concrete.typeName e), ev)
    | (.ok _, ev) =>
      let r := shutdownHooks rest
      (r.1, ev ++ r.2)

/-- Shutdown from src/container.go lines 122-164: collect every
non-Singleton binding (every binding when clearSingletons), run their
OnShutdown hooks, then either wipe the table together with the boot and
resolution state, or delete only the non-Singleton bindings.  A hook
failure returns before any table mutation. -/
def Shutdown (clearSingletons : Bool) (s : ContainerState) :
    Except GoError Unit × ContainerState × List Event :=
  let toShutdown := s.bindings.filter (fun p => !(p.2.scope == Scope.singleton) || clearSingletons)
  match shutdownHooks toShutdown with
  | (.error e, ev) => (.error e, s, ev)
  | (.ok _, ev) =>
    if clearSingletons then
      (.ok (), { s with bindings := [], booted := false, bootConsumed := false, chain := [] }, ev)
    else
      (.ok (), { s with bindings := s.bindings.filter (fun p => p.2.scope == Scope.singleton) }, ev)

/-- Reset from src/container.go lines 365-377. -/
def Reset (s : ContainerState) : ContainerState :=
  { s with bindings := [], chain := [], booted := false, bootConsumed := false }

/-- bind from src/container.go lines 379-408: nil check, substitution of
the base context when none is supplied, the `MergeWith` against the base
context, and the overwriting store.  A nil service is the `none`
argument. -/
def bind (s : ContainerState) (service : Option ServiceImpl) (serviceType : String)
    (scope : Scope) (ctx : Option ContainerContext) (predicate : Option ContextPredicate) :
    Except GoError Unit × ContainerState :=
  match service with
  | none => (.error (.nilService serviceType), s)
  | some svc =>
    let bindingCtx := (ctx.getD s.ctx).MergeWith (some s.ctx)
    let key := makeBindingKey scope serviceType
    let b : Binding :=
      { scope := scope, concrete := svc, abstract := serviceType, inited := false,
        ctx := bindingCtx, predicate := predicate }
    (.ok (), { s with bindings := storeBinding s.bindings key b })

/-! Concrete inputs used to evaluate the model. -/

/-- Empty context over the background parent. -/
def ctxEmpty : ContainerContext := NewContainerContext none

/-- A registry base context whose local store carries k = 2. -/
def baseCtxC1 : ContainerContext :=
  { parentCtx := fun _ => none, values := fun q => if q = "k" then some "2" else none }

/-- A bind-time context carrying k = 1. -/
def suppliedCtxC1 : ContainerContext := ctxEmpty.WithValue "k" "1"

/-- A plain service implementing the Svc interface. -/
def svcC1 : ServiceImpl :=
  { id := 1, typeName := "SvcImpl", implements := ["Svc"], bootResolves := [],
    bootFails := false, shutdownFails := false }

/-- Fresh container whose base context carries k = 2. -/
def stC1 : ContainerState :=
  { bindings := [], ctx := baseCtxC1, booted := false, bootConsumed := false, chain := [] }

/-- A well-behaved Database implementation. -/
def svcC2 : ServiceImpl :=
  { id := 2, typeName := "MockDB", implements := ["Database"], bootResolves := [],
    bootFails := false, shutdownFails := false }

/-- Uninitialized singleton binding of svcC2. -/
def bC2 : Binding :=
  { scope := .singleton, concrete := svcC2, abstract := "Database", inited := false,
    ctx := ctxEmpty, predicate := none }

/-- Container holding one singleton Database binding, not yet booted. -/
def stC2 : ContainerState :=
  { bindings := [(makeBindingKey .singleton "Database", bC2)], ctx := ctxEmpty,
    booted := false, bootConsumed := false, chain := [] }

/-- A well-behaved transient Database implementation. -/
def svcC3 : ServiceImpl :=
  { id := 3, typeName := "MockDB", implements := ["Database"], bootResolves := [],
    bootFails := false, shutdownFails := false }

/-- Already-initialized transient binding of svcC3. -/
def bC3 : Binding :=
  { scope := .transient, concrete := svcC3, abstract := "Database", inited := true,
    ctx := ctxEmpty, predicate := none }

/-- Container holding one initialized transient Database binding. -/
def stC3 : ContainerState :=
  { bindings := [(makeBindingKey .transient "Database", bC3)], ctx := ctxEmpty,
    booted := false, bootConsumed := false, chain := [] }

/-- A transient Database implementation whose OnShutdown fails. -/
def svcC3f : ServiceImpl :=
  { id := 4, typeName := "BadShutdownDB", implements := ["Database"], bootResolves := [],
    bootFails := false, shutdownFails := true }

/-- Already-initialized transient binding of svcC3f. -/
def bC3f : Binding :=
  { scope := .transient, concrete := svcC3f, abstract := "Database", inited := true,
    ctx := ctxEmpty, predicate := none }

/-- Container holding one initialized transient binding whose OnShutdown
fails. -/
def stC3f : ContainerState :=
  { bindings := [(makeBindingKey .transient "Database", bC3f)], ctx := ctxEmpty,
    booted := false, bootConsumed := false, chain := [] }

/-- A service that does not implement the Database interface. -/
def wrongSvc : ServiceImpl :=
  { id := 9, typeName := "WrongImpl", implements := ["Other"], bootResolves := [],
    bootFails := false, shutdownFails := false }

/-- A predicate selecting a wrong-typed implementation. -/
def predWrong : ContextPredicate := fun _ => .ok wrongSvc

/-- A context carrying a request_id. -/
def ctxReq : ContainerContext := ctxEmpty.WithValue "request_id" "r1"

/-- Request binding of svcC2 guarded by the wrong-typed predicate. -/
def bC4r : Binding :=
  { scope := .request, concrete := svcC2, abstract := "Database", inited := false,
    ctx := ctxReq, predicate := some predWrong }

/-- Transient binding of svcC2 guarded by the wrong-typed predicate. -/
def bC4t : Binding :=
  { scope := .transient, concrete := svcC2, abstract := "Database", inited := false,
    ctx := ctxReq, predicate := some predWrong }

/-- Container holding the two predicate-guarded Database bindings. -/
def stC4 : ContainerState :=
  { bindings := [(makeBindingKey .request "Database", bC4r),
                 (makeBindingKey .transient "Database", bC4t)],
    ctx := ctxEmpty, booted := false, bootConsumed := false, chain := [] }

/-- CircularImpl1: its OnBoot resolves CircularService2. -/
def svcA : ServiceImpl :=
  { id := 101, typeName := "CircularImpl1", implements := ["CircularService1"],
    bootResolves := ["CircularService2"], bootFails := false, shutdownFails := false }

/-- CircularImpl2: its OnBoot resolves CircularService1. -/
def svcB : ServiceImpl :=
  { id := 102, typeName := "CircularImpl2", implements := ["CircularService2"],
    bootResolves := ["CircularService1"], bootFails := false, shutdownFails := false }

/-- Container holding the two mutually-recursive transient bindings. -/
def stC6 : ContainerState :=
  { bindings :=
      [(makeBindingKey .transient "CircularService1",
        { scope := .transient, concrete := svcA, abstract := "CircularService1",
          inited := false, ctx := ctxEmpty, predicate := none }),
       (makeBindingKey .transient "CircularService2",
        { scope := .transient, concrete := svcB, abstract := "CircularService2",
          inited := false, ctx := ctxEmpty, predicate := none })],
    ctx := ctxEmpty, booted := false, bootConsumed := false, chain := [] }

/-- Container whose caller is mid-resolution of the key transient:X. -/
def stC6w : ContainerState :=
  { bindings := [], ctx := ctxEmpty, booted := false, bootConsumed := false,
    chain := ["transient:X"] }

/-- Singleton binding of svcC2, initialized. -/
def bC7s : Binding :=
  { scope := .singleton, concrete := svcC2, abstract := "Database", inited := true,
    ctx := ctxEmpty, predicate := none }

/-- Transient binding of svcC3, initialized. -/
def bC7t : Binding :=
  { scope := .transient, concrete := svcC3, abstract := "Database", inited := true,
    ctx := ctxEmpty, predicate := none }

/-- Container holding one singleton and one transient binding. -/
def stC7 : ContainerState :=
  { bindings := [(makeBindingKey .singleton "Database", bC7s),
                 (makeBindingKey .transient "Database", bC7t)],
    ctx := ctxEmpty, booted := true, bootConsumed := true, chain := [] }

/-- Request binding whose bound context carries no request_id anywhere. -/
def bC8 : Binding :=
  { scope := .request, concrete := svcC2, abstract := "Database", inited := false,
    ctx := ctxEmpty, predicate := none }

/-- Container holding the request binding without request_id. -/
def stC8 : ContainerState :=
  { bindings := [(makeBindingKey .request "Database", bC8)], ctx := ctxEmpty,
    booted := false, bootConsumed := false, chain := [] }

/-- A singleton Database implementation whose OnBoot fails. -/
def svcC10 : ServiceImpl :=
  { id := 10, typeName := "FailingDB", implements := ["Database"], bootResolves := [],
    bootFails := true, shutdownFails := false }

/-- Container holding one failing singleton binding, gate not consumed. -/
def stC10 : ContainerState :=
  { bindings := [(makeBindingKey .singleton "Database",
      { scope := .singleton, concrete := svcC10, abstract := "Database", inited := false,
        ctx := ctxEmpty, predicate := none })],
    ctx := ctxEmpty, booted := false, bootConsumed := false, chain := [] }

/-! Helper lemmas about the binding table and the tracker. -/

/-- Looking up the key just stored finds the stored binding. -/
theorem lookup_store_same (m : List (String × Binding)) (k : String) (b : Binding) :
    lookupBinding (storeBinding m k b) k = some b := by
  unfold lookupBinding storeBinding
  rw [List.find?_append]
  have h1 : List.find? (fun p => p.1 == k) (m.filter (fun p => !(p.1 == k))) = none := by
    rw [List.find?_eq_none]
    intro a ha
    have := (List.mem_filter.mp ha).2
    simp only [Bool.not_eq_eq_eq_not, Bool.not_true] at this
    simp [this]
  rw [h1]
  simp [List.find?]

/-- Storing at one key leaves lookups at other keys unchanged. -/
theorem lookup_store_other (m : List (String × Binding)) (k q : String) (b : Binding)
    (h : q ≠ k) : lookupBinding (storeBinding m k b) q = lookupBinding m q := by
  unfold lookupBinding storeBinding
  rw [List.find?_append]
  have h2 : List.find? (fun p => p.1 == q) [(k, b)] = none := by
    have hkq : (k == q) = false := beq_eq_false_iff_ne.mpr (Ne.symm h)
    simp [List.find?, hkq]
  rw [h2]
  have h3 : List.find? (fun p => p.1 == q) (m.filter (fun p => !(p.1 == k))) =
      List.find? (fun p => p.1 == q) m := by
    induction m with
    | nil => rfl
    | cons hd tl ih =>
      by_cases hh : hd.1 == k
      · have hq : (hd.1 == q) = false := by
          have : hd.1 = k := beq_iff_eq.mp hh
          simp [this, beq_iff_eq, Ne.symm h]
        simp [List.filter, hh, List.find?, hq, ih]
      · by_cases hq : hd.1 == q
        · simp [List.filter, hh, List.find?, hq]
        · simp only [Bool.not_eq_true] at hh hq
          simp [List.filter, hh, List.find?, hq, ih]
  rw [h3]
  cases List.find? (fun p => p.1 == q) m <;> rfl

/-- Finishing the resolution just started restores the state. -/
theorem finish_after_start (s : ContainerState) (key : String) :
    finishResolving { s with chain := key :: s.chain } key = s := by
  unfold finishResolving
  rw [List.erase_cons_head]

/-! Claim theorems. -/

/-- C1 counterexample: bind stores the supplied context merged with the
registry base context with the base context winning on collision, not
the bind-time context.  At base local store k = 2 and supplied local
store k = 1, the stored boundContext resolves k to 2, not to the
bind-time value 1. -/
theorem bind_bindTime_priority_counterexample :
    suppliedCtxC1.values "k" = some "1" ∧
    stC1.ctx.values "k" = some "2" ∧
    ((lookupBinding (bind stC1 (some svcC1) "Svc" .transient (some suppliedCtxC1) none).2.bindings
        (makeBindingKey .transient "Svc")).map (fun b => b.ctx.Value "k")) = some (some "2") ∧
    ((lookupBinding (bind stC1 (some svcC1) "Svc" .transient (some suppliedCtxC1) none).2.bindings
        (makeBindingKey .transient "Svc")).map (fun b => b.ctx.Value "k")) ≠ some (some "1") := by
  refine ⟨rfl, rfl, rfl, ?_⟩
  intro h
  rw [show ((lookupBinding (bind stC1 (some svcC1) "Svc" .transient (some suppliedCtxC1)
      none).2.bindings (makeBindingKey .transient "Svc")).map (fun b => b.ctx.Value "k")) =
      some (some "2") from rfl] at h
  simp at h

/-- C1 amended: for every bind call, the stored binding's boundContext
gives the registry base context priority over bind-time values (for
every key present in the base context's local store, the stored context
resolves it to the base value), and when no context is supplied the
base context's local content is used as-is. -/
theorem bind_base_context_priority (s : ContainerState) (supplied : ContainerContext)
    (svc : ServiceImpl) (tn : String) (scope : Scope) (pred : Option ContextPredicate)
    (k v : String) (hbase : s.ctx.values k = some v) :
    (∃ b, lookupBinding (bind s (some svc) tn scope (some supplied) pred).2.bindings
        (makeBindingKey scope tn) = some b ∧ b.ctx.Value k = some v) ∧
    (∃ b, lookupBinding (bind s (some svc) tn scope none pred).2.bindings
        (makeBindingKey scope tn) = some b ∧
        (∀ q, b.ctx.values q = s.ctx.values q) ∧ b.ctx.parentCtx = s.ctx.parentCtx) := by
  constructor
  · refine ⟨_, lookup_store_same _ _ _, ?_⟩
    simp only [ContainerContext.Value, ContainerContext.MergeWith, Option.getD, hbase]
  · refine ⟨_, lookup_store_same _ _ _, ?_, rfl⟩
    intro q
    simp only [ContainerContext.MergeWith, Option.getD]
    cases s.ctx.values q <;> rfl

/-- C1 witness for the amended claim at a concrete container. -/
theorem bind_base_context_priority_witness :
    ∃ b, lookupBinding (bind stC1 (some svcC1) "Svc" .transient (some suppliedCtxC1)
        none).2.bindings (makeBindingKey .transient "Svc") = some b ∧
      b.ctx.Value "k" = some "2" :=
  (bind_base_context_priority stC1 suppliedCtxC1 svcC1 "Svc" .transient none "k" "2" rfl).1

/-- C2: evaluating the code at a container holding one singleton
Database binding.  Boot succeeds and invokes the OnBoot hook, but the
table entry still has initialized = false afterwards (the loop mutates a
copy of the map value), so the next resolveSingleton invokes OnBoot a
second time instead of returning a cached initialized instance. -/
theorem boot_leaves_table_uninitialized :
    (Boot 3 stC2).1 = .ok () ∧
    (Boot 3 stC2).2.2 = [.boot 2] ∧
    ((lookupBinding (Boot 3 stC2).2.1.bindings (makeBindingKey .singleton "Database")).map
      (fun b => b.inited)) = some false ∧
    (ResolveSingleton 3 "Database" (Boot 3 stC2).2.1).2.2 = [.boot 2] :=
  ⟨rfl, rfl, rfl, rfl⟩

/-- C4: a predicate returning a wrong-typed implementation is handled as
PredicateError on the Transient path, but on the Request path it hits
the unchecked assertion result.(T) at src/container.go:306 and panics
instead of returning PredicateError. -/
theorem predicate_wrong_type_outcomes :
    (ResolveTransient 3 "Database" stC4).1 =
      .err (.predicateErr "Database" (.simulated "predicate returned invalid type")) ∧
    (ResolveRequest 3 "Database" stC4).1 = .panicked "interface conversion" :=
  ⟨rfl, rfl⟩

/-- C5: mergeWith returns a context whose local pairs are the receiver's
overwritten by the other's (other wins on every collision, so the
withValue example resolves to 2), merging with a nil other preserves the
receiver's local content, and the result's parent is the receiver's
parent. -/
theorem mergeWith_other_wins :
    (∀ a b : ContainerContext,
      ((a.WithValue "k" "1").MergeWith (some (b.WithValue "k" "2"))).Value "k" = some "2") ∧
    (∀ (a b : ContainerContext) (k : String),
      (a.MergeWith (some b)).values k = (b.values k).or (a.values k)) ∧
    (∀ (a : ContainerContext) (k : String), (a.MergeWith none).values k = a.values k) ∧
    (∀ (a : ContainerContext) (ob : Option ContainerContext),
      (a.MergeWith ob).parentCtx = a.parentCtx) := by
  refine ⟨?_, ?_, fun a k => rfl, fun a ob => rfl⟩
  · intro a b
    simp [ContainerContext.Value, ContainerContext.MergeWith, ContainerContext.WithValue]
  · intro a b k
    simp only [ContainerContext.MergeWith]
    cases b.values k <;> rfl

/-- C6: startResolving rejects exactly the keys already in the caller's
in-flight set and inserts fresh keys; consequently the circular
Transient scenario (ServiceA's boot resolves ServiceB whose boot
resolves ServiceA) fails with CircularDependencyError for the in-flight
key, surfaced through the InitializationError wrapping of the two hook
returns, instead of recursing unboundedly. -/
theorem circular_dependency_detected :
    (∀ (s : ContainerState) (key : String),
      (key ∈ s.chain → startResolving s key = .error (.circular key)) ∧
      (key ∉ s.chain → startResolving s key = .ok { s with chain := key :: s.chain })) ∧
    (ResolveTransient 5 "CircularService1" stC6).1 =
      .err (.initialization "CircularService1"
        (.initialization "CircularService2"
          (.circular (makeBindingKey .transient "CircularService1")))) ∧
    GoError.circular (makeBindingKey .transient "CircularService1") ∈
      (GoError.initialization "CircularService1"
        (.initialization "CircularService2"
          (.circular (makeBindingKey .transient "CircularService1")))).chain := by
  refine ⟨?_, rfl, by decide⟩
  intro s key
  constructor
  · intro h
    simp [startResolving, h]
  · intro h
    simp [startResolving, h]

/-- C6 witness: a key already in flight is rejected at a concrete
state. -/
theorem circular_dependency_detected_witness :
    startResolving stC6w "transient:X" = .error (.circular "transient:X") :=
  (circular_dependency_detected.1 stC6w "transient:X").1 (by decide)

/-- C8: a Request binding whose bound context has no request_id value
(local store and parent chain both miss it) makes every resolveRequest
call fail with MissingContextValueError for key request_id, leaves the
state unchanged and invokes no lifecycle hook. -/
theorem resolveRequest_missing_request_id (fuel : Nat) (t : String) (s : ContainerState)
    (b : Binding) (hb : lookupBinding s.bindings (makeBindingKey .request t) = some b)
    (hc : makeBindingKey .request t ∉ s.chain)
    (hv : b.ctx.Value "request_id" = none) :
    ResolveRequest fuel t s = (.err (.missingContextValue "request_id"), s, []) := by
  simp only [ResolveRequest, startResolving, if_neg hc, hb, hv, finish_after_start]

/-- C8 witness at a concrete request binding lacking request_id. -/
theorem resolveRequest_missing_request_id_witness :
    ResolveRequest 3 "Database" stC8 = (.err (.missingContextValue "request_id"), stC8, []) :=
  resolveRequest_missing_request_id 3 "Database" stC8 bC8 rfl (by decide) rfl

/-- A successful hook pass of Shutdown ran OnShutdown once per collected
binding, in table order. -/
theorem shutdownHooks_ok (l : List (String × Binding)) :
    ∀ u ev, shutdownHooks l = (.ok u, ev) →
      ev = l.map (fun p => Event.shutdown p.2.concrete.id) := by
  induction l with
  | nil => intro u ev h; cases h; rfl
  | cons hd tl ih =>
    intro u ev h
    rcases hr : shutdownHooks tl with ⟨o, ev2⟩
    cases hf : hd.2.concrete.shutdownFails with
    | true => simp [shutdownHooks, runOnShutdown, hf] at h
    | false =>
      simp only [shutdownHooks, runOnShutdown, hf, Bool.false_eq_true, if_false, hr] at h
      have h1 : o = .ok u := congrArg (fun x => x.1) h
      have h2 : (Event.shutdown hd.2.concrete.id :: ev2 : List Event) = ev :=
        congrArg (fun x => x.2) h
      rw [h1] at hr
      have h3 := ih u ev2 hr
      rw [← h2, h3]
      simp

/-- C7: a successful shutdown(false) removes exactly the non-Singleton
bindings after running their OnShutdown hooks and leaves every Singleton
binding and the remaining container state untouched; a successful
shutdown(true) also runs OnShutdown on Singletons, wipes the binding
table and the boot/resolution state, and makes every subsequent
resolution of any scope fail with BindingNotFoundError. -/
theorem shutdown_scope_effects (s : ContainerState) :
    (∀ s' ev, Shutdown false s = (.ok (), s', ev) →
      s'.bindings = s.bindings.filter (fun p => p.2.scope == Scope.singleton) ∧
      ev = (s.bindings.filter (fun p => !(p.2.scope == Scope.singleton))).map
        (fun p => Event.shutdown p.2.concrete.id) ∧
      s'.booted = s.booted ∧ s'.bootConsumed = s.bootConsumed ∧ s'.chain = s.chain) ∧
    (∀ s' ev, Shutdown true s = (.ok (), s', ev) →
      s'.bindings = [] ∧ s'.booted = false ∧ s'.bootConsumed = false ∧ s'.chain = [] ∧
      ev = s.bindings.map (fun p => Event.shutdown p.2.concrete.id) ∧
      (∀ fuel t,
        (ResolveTransient (fuel + 1) t s').1 = .err (.notFound t) ∧
        (ResolveRequest fuel t s').1 = .err (.notFound t) ∧
        (ResolveSingleton fuel t s').1 = .err (.notFound t))) := by
  constructor
  · intro s' ev h
    rcases hsh : shutdownHooks (s.bindings.filter
        (fun p => !(p.2.scope == Scope.singleton) || false)) with ⟨o, ev0⟩
    simp only [Shutdown, hsh] at h
    cases o with
    | error e => simp at h
    | ok u =>
      have hs : ({ s with bindings :=
          s.bindings.filter (fun p => p.2.scope == Scope.singleton) } : ContainerState) = s' :=
        congrArg (fun x => x.2.1) h
      have hev : ev0 = ev := congrArg (fun x => x.2.2) h
      subst hs; subst hev
      refine ⟨rfl, ?_, rfl, rfl, rfl⟩
      have := shutdownHooks_ok _ u ev0 hsh
      simpa using this
  · intro s' ev h
    rcases hsh : shutdownHooks (s.bindings.filter
        (fun p => !(p.2.scope == Scope.singleton) || true)) with ⟨o, ev0⟩
    simp only [Shutdown, hsh] at h
    cases o with
    | error e => simp at h
    | ok u =>
      have hs : ({ s with bindings := [], booted := false, bootConsumed := false, chain := [] } : ContainerState) = s' :=
        congrArg (fun x => x.2.1) h
      have hev : ev0 = ev := congrArg (fun x => x.2.2) h
      subst hs; subst hev
      refine ⟨rfl, rfl, rfl, rfl, ?_, ?_⟩
      · have := shutdownHooks_ok _ u ev0 hsh
        simpa using this
      · intro fuel t
        refine ⟨?_, ?_, ?_⟩
        · simp [ResolveTransient, resolveTransientBody, startResolving, lookupBinding,
            List.find?]
        · simp [ResolveRequest, startResolving, lookupBinding, List.find?]
        · simp [ResolveSingleton, lookupBinding, List.find?]

/-- C7 witness at a container holding one singleton and one transient
binding. -/
theorem shutdown_scope_effects_witness :
    (Shutdown false stC7).2.1.bindings =
      stC7.bindings.filter (fun p => p.2.scope == Scope.singleton) ∧
    (Shutdown true stC7).2.1.bindings = [] :=
  ⟨((shutdown_scope_effects stC7).1 (Shutdown false stC7).2.1 (Shutdown false stC7).2.2 rfl).1,
   ((shutdown_scope_effects stC7).2 (Shutdown true stC7).2.1 (Shutdown true stC7).2.2 rfl).1⟩

/-! Frame lemmas: resolution never touches the boot gate or the booted
flag. -/

/-- A resolver that leaves the boot gate and the booted flag untouched. -/
def PreservesMeta (resolve : Resolver) : Prop :=
  ∀ t s, (resolve t s).2.1.bootConsumed = s.bootConsumed ∧ (resolve t s).2.1.booted = s.booted

/-- Hook resolution sequences preserve the flags when the resolver
does. -/
theorem runSeqWith_meta (resolve : Resolver) (h : PreservesMeta resolve) (ts : List String) :
    ∀ s, (runSeqWith resolve ts s).2.1.bootConsumed = s.bootConsumed ∧
      (runSeqWith resolve ts s).2.1.booted = s.booted := by
  induction ts with
  | nil => intro s; exact ⟨rfl, rfl⟩
  | cons t ts ih =>
    intro s
    have h1 := h t s
    rcases hr : resolve t s with ⟨o, s1, ev⟩
    rw [hr] at h1
    simp only [runSeqWith, hr]
    cases o with
    | ok a =>
      have h2 := ih s1
      exact ⟨h2.1.trans h1.1, h2.2.trans h1.2⟩
    | err e => exact h1
    | panicked m => exact h1
    | noFuel => exact h1

/-- The state produced by a hook run is the state of its resolution
sequence. -/
theorem runOnBootWith_state (resolve : Resolver) (svc : ServiceImpl) (ctx : ContainerContext)
    (s : ContainerState) :
    (runOnBootWith resolve svc ctx s).2.1 = (runSeqWith resolve svc.bootResolves s).2.1 := by
  unfold runOnBootWith
  rcases hr : runSeqWith resolve svc.bootResolves s with ⟨o, s1, ev⟩
  cases o <;> rfl

/-- The events of a hook run are the invocation of the hook followed by
the events of its resolution sequence. -/
theorem runOnBootWith_events (resolve : Resolver) (svc : ServiceImpl) (ctx : ContainerContext)
    (s : ContainerState) :
    (runOnBootWith resolve svc ctx s).2.2 =
      Event.boot svc.id :: (runSeqWith resolve svc.bootResolves s).2.2 := by
  unfold runOnBootWith
  rcases hr : runSeqWith resolve svc.bootResolves s with ⟨o, s1, ev⟩
  cases o <;> rfl

/-- The core of a transient resolution preserves the flags when the
resolver used inside hooks does. -/
theorem transientCore_meta (resolve : Resolver) (h : PreservesMeta resolve)
    (t key : String) (b : Binding) (s0 : ContainerState) (ev0 : List Event) :
    (transientCore resolve t key b s0 ev0).2.1.bootConsumed = s0.bootConsumed ∧
    (transientCore resolve t key b s0 ev0).2.1.booted = s0.booted := by
  have hboot : ∀ svc s1, (runOnBootWith resolve svc b.ctx s1).2.1.bootConsumed = s1.bootConsumed ∧
      (runOnBootWith resolve svc b.ctx s1).2.1.booted = s1.booted := by
    intro svc s1
    rw [runOnBootWith_state]
    exact runSeqWith_meta resolve h _ s1
  have hbf : ∀ svc ctx wb rv,
      (bootAndFinish resolve t key svc ctx wb rv s0 ev0).2.1.bootConsumed = s0.bootConsumed ∧
      (bootAndFinish resolve t key svc ctx wb rv s0 ev0).2.1.booted = s0.booted := by
    intro svc ctx wb rv
    have hm : (runOnBootWith resolve svc ctx s0).2.1.bootConsumed = s0.bootConsumed ∧
        (runOnBootWith resolve svc ctx s0).2.1.booted = s0.booted := by
      rw [runOnBootWith_state]
      exact runSeqWith_meta resolve h _ s0
    have hwb : ∀ s1 : ContainerState,
        (applyWriteBack wb key s1).bootConsumed = s1.bootConsumed ∧
        (applyWriteBack wb key s1).booted = s1.booted := by
      intro s1; cases wb <;> exact ⟨rfl, rfl⟩
    rcases ho : (runOnBootWith resolve svc ctx s0).1 with a | e | m | _ <;>
      simp only [bootAndFinish, ho, finishResolving]
    · exact ⟨(hwb _).1.trans hm.1, (hwb _).2.trans hm.2⟩
    · exact hm
    · exact hm
    · exact hm
  clear hboot
  rcases hp : b.predicate with _ | p
  · by_cases hc : b.concrete.implements.contains t = true
    · simp only [transientCore, hp, if_pos hc]
      exact hbf _ _ _ _
    · simp only [transientCore, hp, if_neg hc]
      exact ⟨rfl, rfl⟩
  · rcases hpe : p b.ctx with e | result
    · simp only [transientCore, hp, hpe]
      exact ⟨rfl, rfl⟩
    · by_cases hc : result.implements.contains t = true
      · simp only [transientCore, hp, hpe, if_pos hc]
        exact hbf _ _ _ _
      · simp only [transientCore, hp, hpe, if_neg hc]
        exact ⟨rfl, rfl⟩

/-- The post-guard body of a transient resolution preserves the flags
when the resolver used inside hooks does. -/
theorem resolveTransientBody_meta (resolve : Resolver) (h : PreservesMeta resolve)
    (t key : String) (s0 : ContainerState) :
    (resolveTransientBody resolve t key s0).2.1.bootConsumed = s0.bootConsumed ∧
    (resolveTransientBody resolve t key s0).2.1.booted = s0.booted := by
  rcases hl : lookupBinding s0.bindings key with _ | b
  · simp only [resolveTransientBody, hl]
    exact ⟨rfl, rfl⟩
  · by_cases hi : b.inited = true
    · rcases hsd : runOnShutdown b.concrete with ⟨e2, ev2⟩
      cases e2 with
      | error e =>
        simp only [resolveTransientBody, hl, if_pos hi, hsd]
        exact ⟨rfl, rfl⟩
      | ok u =>
        simp only [resolveTransientBody, hl, if_pos hi, hsd]
        exact transientCore_meta resolve h t key _ s0 _
    · simp only [resolveTransientBody, hl, if_neg hi]
      exact transientCore_meta resolve h t key _ s0 _

/-- Transient resolution preserves the flags, at every fuel. -/
theorem resolveTransient_meta : ∀ fuel, PreservesMeta (ResolveTransient fuel) := by
  intro fuel
  induction fuel with
  | zero => intro t s; exact ⟨rfl, rfl⟩
  | succ n ih =>
    intro t s
    by_cases hs : makeBindingKey .transient t ∈ s.chain
    · simp [ResolveTransient, startResolving, if_pos hs]
    · simp only [ResolveTransient, startResolving, if_neg hs]
      exact resolveTransientBody_meta _ ih t _ _

/-- The pre-warm loop of Boot preserves the flags. -/
theorem bootLoop_meta (resolve : Resolver) (h : PreservesMeta resolve)
    (l : List (String × Binding)) :
    ∀ s, (bootLoop resolve l s).2.1.bootConsumed = s.bootConsumed ∧
      (bootLoop resolve l s).2.1.booted = s.booted := by
  induction l with
  | nil => intro s; exact ⟨rfl, rfl⟩
  | cons hd tl ih =>
    intro s
    rcases hd with ⟨k, b⟩
    have hmeta : ∀ s0, (runOnBootWith resolve b.concrete b.ctx s0).2.1.bootConsumed =
        s0.bootConsumed ∧ (runOnBootWith resolve b.concrete b.ctx s0).2.1.booted = s0.booted := by
      intro s0
      rw [runOnBootWith_state]
      exact runSeqWith_meta resolve h _ s0
    simp only [bootLoop]
    by_cases h1 : (!b.inited && b.scope == Scope.singleton) = true
    · rw [if_pos h1]
      rcases hro : runOnBootWith resolve b.concrete b.ctx s with ⟨o, s1, ev⟩
      have hm := hmeta s
      rw [hro] at hm
      cases o with
      | ok a =>
        have h2 := ih s1
        exact ⟨h2.1.trans hm.1, h2.2.trans hm.2⟩
      | err e => exact hm
      | panicked m => exact hm
      | noFuel => exact hm
    · rw [if_neg h1]
      by_cases h2 : (b.scope == Scope.request) = true
      · rw [if_pos h2]
        rcases hro : runOnBootWith resolve b.concrete b.ctx s with ⟨o, s1, ev⟩
        have hm := hmeta s
        rw [hro] at hm
        cases o with
        | ok a =>
          have h3 := ih s1
          exact ⟨h3.1.trans hm.1, h3.2.trans hm.2⟩
        | err e => exact hm
        | panicked m => exact hm
        | noFuel => exact hm
      · rw [if_neg h2]
        exact ih s

/-- Any completed Boot call leaves the one-shot gate consumed. -/
theorem Boot_consumes_gate (fuel : Nat) (s : ContainerState) :
    (Boot fuel s).2.1.bootConsumed = true := by
  unfold Boot
  by_cases h : s.bootConsumed = true
  · rw [if_pos h]; exact h
  · rw [if_neg h]
    by_cases hb : ({ s with bootConsumed := true } : ContainerState).booted = true
    · rw [if_pos hb]
    · rw [if_neg hb]
      exact (bootLoop_meta _ (resolveTransient_meta fuel) _ _).1

/-- C9: after a successful boot, every repeated boot call (before a
reset) returns nil, invokes no OnBoot hook (empty event trace) and
returns the container state unchanged. -/
theorem boot_idempotent (fuel fuel₂ : Nat) (s s₁ : ContainerState) (ev : List Event)
    (h : Boot fuel s = (.ok (), s₁, ev)) :
    Boot fuel₂ s₁ = (.ok (), s₁, []) := by
  have hc : s₁.bootConsumed = true := by
    have hg := Boot_consumes_gate fuel s
    rw [h] at hg
    exact hg
  unfold Boot
  rw [if_pos hc]

/-- C9 witness: repeating Boot on the container produced by a first
successful Boot is a no-op. -/
theorem boot_idempotent_witness :
    Boot 1 (Boot 2 stC2).2.1 = (.ok (), (Boot 2 stC2).2.1, []) :=
  boot_idempotent 2 1 stC2 (Boot 2 stC2).2.1 (Boot 2 stC2).2.2 rfl

/-- C10: after a failed first boot, every subsequent boot call before a
Reset returns nil with no hook invocation and no retry of the failed
bindings: the bootOnce gate is consumed by any completed first attempt.
Reset releases the gate again. -/
theorem boot_failure_not_retried (fuel fuel₂ : Nat) (s s₁ : ContainerState) (e : GoError)
    (ev : List Event) (h : Boot fuel s = (.err e, s₁, ev)) :
    Boot fuel₂ s₁ = (.ok (), s₁, []) ∧ (Reset s₁).bootConsumed = false := by
  have hc : s₁.bootConsumed = true := by
    have hg := Boot_consumes_gate fuel s
    rw [h] at hg
    exact hg
  constructor
  · unfold Boot
    rw [if_pos hc]
  · rfl

/-- C10 witness: a failing singleton OnBoot consumes the gate; the next
Boot is a no-op and Reset releases the gate. -/
theorem boot_failure_not_retried_witness :
    Boot 1 (Boot 2 stC10).2.1 = (.ok (), (Boot 2 stC10).2.1, []) ∧
    (Reset (Boot 2 stC10).2.1).bootConsumed = false :=
  boot_failure_not_retried 2 1 stC10 (Boot 2 stC10).2.1 (.simulated "boot failure")
    (Boot 2 stC10).2.2 rfl

/-! Frame lemmas: a resolution in flight protects its own table entry.
While a key sits in the caller's in-flight set, no nested resolution can
start it again (the cycle guard rejects it), so no nested resolution can
write to its table entry. -/

/-- A resolver that, for every key currently in flight, preserves the
table entry at that key and keeps the key in flight. -/
def PreservesInflight (resolve : Resolver) : Prop :=
  ∀ t s key, key ∈ s.chain →
    lookupBinding (resolve t s).2.1.bindings key = lookupBinding s.bindings key ∧
    key ∈ (resolve t s).2.1.chain

/-- Hook resolution sequences preserve in-flight entries when the
resolver does. -/
theorem runSeqWith_inflight (resolve : Resolver) (h : PreservesInflight resolve)
    (ts : List String) : ∀ s key, key ∈ s.chain →
      lookupBinding (runSeqWith resolve ts s).2.1.bindings key = lookupBinding s.bindings key ∧
      key ∈ (runSeqWith resolve ts s).2.1.chain := by
  induction ts with
  | nil => intro s key hk; exact ⟨rfl, hk⟩
  | cons t ts ih =>
    intro s key hk
    have h1 := h t s key hk
    rcases hr : resolve t s with ⟨o, s1, ev⟩
    rw [hr] at h1
    simp only [runSeqWith, hr]
    cases o with
    | ok a =>
      have h2 := ih s1 key h1.2
      exact ⟨h2.1.trans h1.1, h2.2⟩
    | err e => exact h1
    | panicked m => exact h1
    | noFuel => exact h1

/-- The boot-and-finish step preserves the table entry and in-flight
membership of any OTHER in-flight key. -/
theorem bootAndFinish_inflight (resolve : Resolver) (h : PreservesInflight resolve)
    (t key0 : String) (svc : ServiceImpl) (ctx : ContainerContext) (wb : Option Binding)
    (rv : ServiceImpl) (s0 : ContainerState) (ev0 : List Event)
    (key : String) (hne : key ≠ key0) (hk : key ∈ s0.chain) :
    lookupBinding (bootAndFinish resolve t key0 svc ctx wb rv s0 ev0).2.1.bindings key =
      lookupBinding s0.bindings key ∧
    key ∈ (bootAndFinish resolve t key0 svc ctx wb rv s0 ev0).2.1.chain := by
  have hm : lookupBinding (runOnBootWith resolve svc ctx s0).2.1.bindings key =
      lookupBinding s0.bindings key ∧ key ∈ (runOnBootWith resolve svc ctx s0).2.1.chain := by
    rw [runOnBootWith_state]
    exact runSeqWith_inflight resolve h _ s0 key hk
  have hwb : ∀ s1 : ContainerState,
      lookupBinding (applyWriteBack wb key0 s1).bindings key = lookupBinding s1.bindings key ∧
      (applyWriteBack wb key0 s1).chain = s1.chain := by
    intro s1
    cases wb with
    | none => exact ⟨rfl, rfl⟩
    | some bb => exact ⟨lookup_store_other _ _ _ _ hne, rfl⟩
  rcases ho : (runOnBootWith resolve svc ctx s0).1 with a | e | m | _ <;>
    simp only [bootAndFinish, ho]
  · refine ⟨(hwb _).1.trans hm.1, ?_⟩
    apply (List.mem_erase_of_ne hne).mpr
    rw [(hwb _).2]
    exact hm.2
  · exact ⟨hm.1, (List.mem_erase_of_ne hne).mpr hm.2⟩
  · exact ⟨hm.1, (List.mem_erase_of_ne hne).mpr hm.2⟩
  · exact ⟨hm.1, (List.mem_erase_of_ne hne).mpr hm.2⟩

/-- The transient core preserves the table entry and in-flight
membership of any other in-flight key. -/
theorem transientCore_inflight (resolve : Resolver) (h : PreservesInflight resolve)
    (t key0 : String) (b : Binding) (s0 : ContainerState) (ev0 : List Event)
    (key : String) (hne : key ≠ key0) (hk : key ∈ s0.chain) :
    lookupBinding (transientCore resolve t key0 b s0 ev0).2.1.bindings key =
      lookupBinding s0.bindings key ∧
    key ∈ (transientCore resolve t key0 b s0 ev0).2.1.chain := by
  have hfin0 : key ∈ (finishResolving s0 key0).chain := (List.mem_erase_of_ne hne).mpr hk
  rcases hp : b.predicate with _ | p
  · by_cases hc : b.concrete.implements.contains t = true
    · simp only [transientCore, hp, if_pos hc]
      exact bootAndFinish_inflight resolve h t key0 _ _ _ _ s0 ev0 key hne hk
    · simp only [transientCore, hp, if_neg hc]
      exact ⟨rfl, hfin0⟩
  · rcases hpe : p b.ctx with e | result
    · simp only [transientCore, hp, hpe]
      exact ⟨rfl, hfin0⟩
    · by_cases hc : result.implements.contains t = true
      · simp only [transientCore, hp, hpe, if_pos hc]
        exact bootAndFinish_inflight resolve h t key0 _ _ _ _ s0 ev0 key hne hk
      · simp only [transientCore, hp, hpe, if_neg hc]
        exact ⟨rfl, hfin0⟩

/-- The post-guard body preserves the table entry and in-flight
membership of any other in-flight key. -/
theorem resolveTransientBody_inflight (resolve : Resolver) (h : PreservesInflight resolve)
    (t key0 : String) (s0 : ContainerState) (key : String) (hne : key ≠ key0)
    (hk : key ∈ s0.chain) :
    lookupBinding (resolveTransientBody resolve t key0 s0).2.1.bindings key =
      lookupBinding s0.bindings key ∧
    key ∈ (resolveTransientBody resolve t key0 s0).2.1.chain := by
  have hfin0 : key ∈ (finishResolving s0 key0).chain := (List.mem_erase_of_ne hne).mpr hk
  rcases hl : lookupBinding s0.bindings key0 with _ | b
  · simp only [resolveTransientBody, hl]
    exact ⟨rfl, hfin0⟩
  · by_cases hi : b.inited = true
    · rcases hsd : runOnShutdown b.concrete with ⟨e2, ev2⟩
      cases e2 with
      | error e =>
        simp only [resolveTransientBody, hl, if_pos hi, hsd]
        exact ⟨rfl, hfin0⟩
      | ok u =>
        simp only [resolveTransientBody, hl, if_pos hi, hsd]
        exact transientCore_inflight resolve h t key0 _ s0 _ key hne hk
    · simp only [resolveTransientBody, hl, if_neg hi]
      exact transientCore_inflight resolve h t key0 _ s0 _ key hne hk

/-- Transient resolution preserves in-flight entries, at every fuel:
re-entry on an in-flight key is rejected by the cycle guard before any
table write. -/
theorem resolveTransient_inflight : ∀ fuel, PreservesInflight (ResolveTransient fuel) := by
  intro fuel
  induction fuel with
  | zero => intro t s key hk; exact ⟨rfl, hk⟩
  | succ n ih =>
    intro t s key hk
    by_cases hs : makeBindingKey .transient t ∈ s.chain
    · simp [ResolveTransient, startResolving, if_pos hs, hk]
    · simp only [ResolveTransient, startResolving, if_neg hs]
      have hne : key ≠ makeBindingKey .transient t := fun he => hs (he ▸ hk)
      exact resolveTransientBody_inflight _ ih t _ _ key hne (List.mem_cons_of_mem _ hk)

/-- A successful transient core run returns the value its binding copy
determines (the stored concrete on the direct path, the predicate's
selection on the predicate path) and leaves the entry at its key as the
write-back dictates: initialized=true on the direct path, untouched on
the predicate path. -/
theorem transientCore_ok (resolve : Resolver) (hres : PreservesInflight resolve)
    (t key0 : String) (b : Binding) (s0 : ContainerState) (ev0 : List Event)
    (hk : key0 ∈ s0.chain) (x : ServiceImpl) (s1 : ContainerState) (ev : List Event)
    (h : transientCore resolve t key0 b s0 ev0 = (.ok x, s1, ev)) :
    (b.predicate = none → x = b.concrete ∧
      lookupBinding s1.bindings key0 = some { b with inited := true }) ∧
    (∀ p, b.predicate = some p → p b.ctx = .ok x ∧
      lookupBinding s1.bindings key0 = lookupBinding s0.bindings key0) := by
  rcases hp : b.predicate with _ | p
  · refine ⟨fun _ => ?_, fun p hp2 => absurd hp2 (by simp)⟩
    by_cases hcon : b.concrete.implements.contains t = true
    · simp only [transientCore, hp, if_pos hcon] at h
      rcases ho : (runOnBootWith resolve b.concrete b.ctx s0).1 with a | e | m | _ <;>
        simp only [bootAndFinish, ho] at h
      · simp only [Prod.mk.injEq] at h
        obtain ⟨hx, hs1, hev⟩ := h
        subst hs1
        refine ⟨?_, ?_⟩
        · injection hx with hx2
          exact hx2.symm
        · exact lookup_store_same _ _ _
      · exact absurd (congrArg (fun z => z.1) h) (by simp)
      · exact absurd (congrArg (fun z => z.1) h) (by simp)
      · exact absurd (congrArg (fun z => z.1) h) (by simp)
    · simp only [transientCore, hp, if_neg hcon] at h
      exact absurd (congrArg (fun z => z.1) h) (by simp)
  · refine ⟨fun hpn => absurd hpn (by simp), fun p2 hp2 => ?_⟩
    have hpp : p = p2 := by injection hp2
    subst hpp
    rcases hpe : p b.ctx with e | result
    · simp only [transientCore, hp, hpe] at h
      exact absurd (congrArg (fun z => z.1) h) (by simp)
    · by_cases hcon : result.implements.contains t = true
      · simp only [transientCore, hp, hpe, if_pos hcon] at h
        rcases ho : (runOnBootWith resolve result b.ctx s0).1 with a | e | m | _ <;>
          simp only [bootAndFinish, ho] at h
        · simp only [Prod.mk.injEq] at h
          obtain ⟨hx, hs1, hev⟩ := h
          subst hs1
          constructor
          · injection hx with hx2
            exact congrArg Except.ok hx2
          · show lookupBinding (runOnBootWith resolve result b.ctx s0).2.1.bindings key0 =
              lookupBinding s0.bindings key0
            rw [runOnBootWith_state]
            exact (runSeqWith_inflight resolve hres _ s0 key0 hk).1
        · exact absurd (congrArg (fun z => z.1) h) (by simp)
        · exact absurd (congrArg (fun z => z.1) h) (by simp)
        · exact absurd (congrArg (fun z => z.1) h) (by simp)
      · simp only [transientCore, hp, hpe, if_neg hcon] at h
        exact absurd (congrArg (fun z => z.1) h) (by simp)

/-- A successful post-guard body run returns the value its table entry
determines and updates the entry exactly as the write-back dictates. -/
theorem resolveTransientBody_ok (resolve : Resolver) (hres : PreservesInflight resolve)
    (t key0 : String) (s0 : ContainerState) (b : Binding)
    (hb : lookupBinding s0.bindings key0 = some b) (hk : key0 ∈ s0.chain)
    (x : ServiceImpl) (s1 : ContainerState) (ev : List Event)
    (h : resolveTransientBody resolve t key0 s0 = (.ok x, s1, ev)) :
    (b.predicate = none → x = b.concrete ∧
      lookupBinding s1.bindings key0 = some { b with inited := true }) ∧
    (∀ p, b.predicate = some p → p b.ctx = .ok x ∧
      lookupBinding s1.bindings key0 = some b) := by
  by_cases hi : b.inited = true
  · rcases hsd : runOnShutdown b.concrete with ⟨e2, ev2⟩
    cases e2 with
    | error e =>
      simp only [resolveTransientBody, hb, if_pos hi, hsd] at h
      exact absurd (congrArg (fun z => z.1) h) (by simp)
    | ok u =>
      simp only [resolveTransientBody, hb, if_pos hi, hsd] at h
      have hc := transientCore_ok resolve hres t key0 { b with inited := false } s0 ev2 hk
        x s1 ev h
      constructor
      · intro hpn
        have h1 := hc.1 hpn
        exact ⟨h1.1, h1.2⟩
      · intro p hp
        have h1 := hc.2 p hp
        exact ⟨h1.1, h1.2.trans hb⟩
  · simp only [resolveTransientBody, hb, if_neg hi] at h
    have hc := transientCore_ok resolve hres t key0 b s0 [] hk x s1 ev h
    exact ⟨fun hpn => hc.1 hpn, fun p hp => ⟨(hc.2 p hp).1, (hc.2 p hp).2.trans hb⟩⟩

/-- A successful transient resolution returns the value its table entry
determines: the stored concrete (entry rewritten with initialized=true)
on the direct path, the predicate's selection (entry untouched) on the
predicate path. -/
theorem resolveTransient_ok_val (fuel : Nat) (t : String) (s : ContainerState) (b : Binding)
    (hb : lookupBinding s.bindings (makeBindingKey .transient t) = some b)
    (x : ServiceImpl) (s1 : ContainerState) (ev : List Event)
    (h : ResolveTransient (fuel + 1) t s = (.ok x, s1, ev)) :
    (b.predicate = none → x = b.concrete ∧
      lookupBinding s1.bindings (makeBindingKey .transient t) = some { b with inited := true }) ∧
    (∀ p, b.predicate = some p → p b.ctx = .ok x ∧
      lookupBinding s1.bindings (makeBindingKey .transient t) = some b) := by
  by_cases hs : makeBindingKey .transient t ∈ s.chain
  · simp only [ResolveTransient, startResolving, if_pos hs] at h
    exact absurd (congrArg (fun z => z.1) h) (by simp)
  · simp only [ResolveTransient, startResolving, if_neg hs] at h
    have hb0 : lookupBinding
        ({ s with chain := makeBindingKey .transient t :: s.chain } : ContainerState).bindings
        (makeBindingKey .transient t) = some b := hb
    exact resolveTransientBody_ok _ (resolveTransient_inflight fuel) t _
      { s with chain := makeBindingKey .transient t :: s.chain } b hb0
      (List.mem_cons_self _ _) x s1 ev h

/-- A successful transient core run invokes OnBoot right after the
events it was entered with. -/
theorem transientCore_ok_events (resolve : Resolver) (t key0 : String) (b : Binding)
    (s0 : ContainerState) (ev0 : List Event) (x : ServiceImpl) (s1 : ContainerState)
    (ev : List Event) (h : transientCore resolve t key0 b s0 ev0 = (.ok x, s1, ev)) :
    ∃ bootId rest, ev = ev0 ++ (Event.boot bootId :: rest) := by
  rcases hp : b.predicate with _ | p
  · by_cases hcon : b.concrete.implements.contains t = true
    · simp only [transientCore, hp, if_pos hcon] at h
      rcases ho : (runOnBootWith resolve b.concrete b.ctx s0).1 with a | e | m | _ <;>
        simp only [bootAndFinish, ho] at h
      · simp only [Prod.mk.injEq] at h
        obtain ⟨-, -, hev⟩ := h
        refine ⟨b.concrete.id, (runSeqWith resolve b.concrete.bootResolves s0).2.2, ?_⟩
        rw [← hev, runOnBootWith_events]
      · exact absurd (congrArg (fun z => z.1) h) (by simp)
      · exact absurd (congrArg (fun z => z.1) h) (by simp)
      · exact absurd (congrArg (fun z => z.1) h) (by simp)
    · simp only [transientCore, hp, if_neg hcon] at h
      exact absurd (congrArg (fun z => z.1) h) (by simp)
  · rcases hpe : p b.ctx with e | result
    · simp only [transientCore, hp, hpe] at h
      exact absurd (congrArg (fun z => z.1) h) (by simp)
    · by_cases hcon : result.implements.contains t = true
      · simp only [transientCore, hp, hpe, if_pos hcon] at h
        rcases ho : (runOnBootWith resolve result b.ctx s0).1 with a | e | m | _ <;>
          simp only [bootAndFinish, ho] at h
        · simp only [Prod.mk.injEq] at h
          obtain ⟨-, -, hev⟩ := h
          refine ⟨result.id, (runSeqWith resolve result.bootResolves s0).2.2, ?_⟩
          rw [← hev, runOnBootWith_events]
        · exact absurd (congrArg (fun z => z.1) h) (by simp)
        · exact absurd (congrArg (fun z => z.1) h) (by simp)
        · exact absurd (congrArg (fun z => z.1) h) (by simp)
      · simp only [transientCore, hp, hpe, if_neg hcon] at h
        exact absurd (congrArg (fun z => z.1) h) (by simp)

/-- C3: for a bound Transient binding (called with its key not already
in flight), two consecutive successful resolveTransient calls return the
same underlying instance; a resolution of an already-initialized binding
first invokes OnShutdown - a failure there surfaces as ShutdownError
with the state unchanged - and on success the OnShutdown invocation is
immediately followed by an OnBoot invocation, so the full
shutdown-then-boot cycle is re-triggered. -/
theorem resolveTransient_reuse (fuel₁ fuel₂ : Nat) (t : String) (s : ContainerState)
    (b : Binding) (hb : lookupBinding s.bindings (makeBindingKey .transient t) = some b)
    (hch : makeBindingKey .transient t ∉ s.chain) :
    (∀ x₁ s₁ ev₁ x₂ s₂ ev₂,
      ResolveTransient (fuel₁ + 1) t s = (.ok x₁, s₁, ev₁) →
      ResolveTransient (fuel₂ + 1) t s₁ = (.ok x₂, s₂, ev₂) → x₁ = x₂) ∧
    (b.inited = true → b.concrete.shutdownFails = true →
      ResolveTransient (fuel₁ + 1) t s =
        (.err (.shutdownErr t (.simulated "shutdown failure")), s,
         [.shutdown b.concrete.id])) ∧
    (∀ x₁ s₁ ev₁, b.inited = true →
      ResolveTransient (fuel₁ + 1) t s = (.ok x₁, s₁, ev₁) →
      ∃ bootId rest, ev₁ = .shutdown b.concrete.id :: .boot bootId :: rest) := by
  refine ⟨?_, ?_, ?_⟩
  · intro x₁ s₁ ev₁ x₂ s₂ ev₂ h1 h2
    have hv1 := resolveTransient_ok_val fuel₁ t s b hb x₁ s₁ ev₁ h1
    rcases hp : b.predicate with _ | p
    · obtain ⟨hx1, hentry⟩ := hv1.1 hp
      have hv2 := resolveTransient_ok_val fuel₂ t s₁ { b with inited := true } hentry
        x₂ s₂ ev₂ h2
      obtain ⟨hx2, -⟩ := hv2.1 hp
      rw [hx1, hx2]
    · obtain ⟨hp1, hentry⟩ := hv1.2 p hp
      have hv2 := resolveTransient_ok_val fuel₂ t s₁ b hentry x₂ s₂ ev₂ h2
      obtain ⟨hp2, -⟩ := hv2.2 p hp
      have h3 := hp1.symm.trans hp2
      injection h3
  · intro hi hf
    have hb0 : lookupBinding
        ({ s with chain := makeBindingKey .transient t :: s.chain } : ContainerState).bindings
        (makeBindingKey .transient t) = some b := hb
    simp only [ResolveTransient, startResolving, if_neg hch, resolveTransientBody, hb0,
      if_pos hi, runOnShutdown, hf, eq_self_iff_true, if_true, finish_after_start]
  · intro x₁ s₁ ev₁ hi h1
    have hb0 : lookupBinding
        ({ s with chain := makeBindingKey .transient t :: s.chain } : ContainerState).bindings
        (makeBindingKey .transient t) = some b := hb
    cases hf : b.concrete.shutdownFails with
    | true =>
      simp only [ResolveTransient, startResolving, if_neg hch, resolveTransientBody, hb0,
        if_pos hi, runOnShutdown, hf, eq_self_iff_true, if_true] at h1
      exact absurd (congrArg (fun z => z.1) h1) (by simp)
    | false =>
      simp only [ResolveTransient, startResolving, if_neg hch, resolveTransientBody, hb0,
        if_pos hi, runOnShutdown, hf, Bool.false_eq_true, if_false] at h1
      have := transientCore_ok_events _ t _ _ _ _ x₁ s₁ ev₁ h1
      obtain ⟨bootId, rest, hev⟩ := this
      exact ⟨bootId, rest, hev⟩

/-- C3 witness: resolving an initialized transient binding whose
OnShutdown fails surfaces ShutdownError with the state unchanged and
only the OnShutdown invocation in the trace. -/
theorem resolveTransient_reuse_witness :
    ResolveTransient 2 "Database" stC3f =
      (.err (.shutdownErr "Database" (.simulated "shutdown failure")), stC3f,
       [.shutdown 4]) :=
  (resolveTransient_reuse 1 0 "Database" stC3f bC3f rfl (by decide)).2.1 rfl rfl

end Digo
